import Mathlib

/-!
Verification of the clash-master statistics server against its
specification. The development shallowly embeds the query-API layer
(`api.ts`), the chain-display helpers of the web dashboard, and the parts
of the Store and Realtime Cache contracts the API layer depends on.
Strings manipulated character-by-character by the display helpers are
embedded as `List Char`; JavaScript `undefined` is embedded as `Option`;
`NaN`-producing numeric parses are embedded as `Option Int`.
-/

namespace ClashMaster

/-- JS truthiness of an optional string value: `undefined` and the empty
string are falsy, every other string is truthy. -/
def truthy : Option String → Bool
  | none => false
  | some s => !s.isEmpty

/-! ## Chain display helpers (dashboard components) -/

/-- A JS string viewed as its character list, for the helpers that walk
strings character by character. -/
abbrev JStr := List Char

/-- Whitespace test used by the JS `trim`. -/
def isWs (c : Char) : Bool := c.isWhitespace

/-- Model of JS `String.prototype.trim`: drop leading whitespace, then
trailing whitespace. -/
def jsTrim (s : JStr) : JStr :=
  ((s.dropWhile isWs).reverse.dropWhile isWs).reverse

/-- Model of JS `s.split(">")`: cut the string at every occurrence of the
single character `>`. -/
def splitOnGt : JStr → List JStr
  | [] => [[]]
  | c :: rest =>
    if c = '>' then [] :: splitOnGt rest
    else
      match splitOnGt rest with
      | [] => [[c]]
      | h :: t => (c :: h) :: t

/-- Model of `getLandingProxy` from the expanded-details component:
split the chain on `>`, trim each part, drop empty parts, and return the
first part, falling back to the whole chain when no part remains. -/
def getLandingProxy (chain : JStr) : JStr :=
  let parts := ((splitOnGt chain).map jsTrim).filter (fun p => !p.isEmpty)
  match parts with
  | [] => chain
  | p :: _ => p

/-- Model of the regex replace `name.replace(/^\["?/, "")`: remove a
leading `[` together with an optional quote directly after it. -/
def stripLeadBracket (s : JStr) : JStr :=
  match s with
  | [] => []
  | c :: rest =>
    if c = '[' then
      match rest with
      | [] => []
      | q :: rest2 => if q = '"' then rest2 else rest
    else s

/-- Worker for `stripTrailBracket`, acting on the reversed string. -/
def stripTrailBracketRev : JStr → JStr
  | [] => []
  | c :: rest =>
    if c = ']' then
      match rest with
      | [] => []
      | q :: rest2 => if q = '"' then rest2 else rest
    else c :: rest

/-- Model of the regex replace `.replace(/"?\]$/, "")`: remove a trailing
`]` together with an optional quote directly before it. -/
def stripTrailBracket (s : JStr) : JStr :=
  (stripTrailBracketRev s.reverse).reverse

/-- Model of `formatProxyName` from the proxy stats chart: an empty name
displays as `DIRECT`; otherwise the serialized-array brackets are
stripped, the result trimmed, split on `>`, and the first non-empty
trimmed segment is returned, falling back to the normalized name. -/
def formatProxyName (name : JStr) : JStr :=
  if name.isEmpty then "DIRECT".toList
  else
    let normalized := jsTrim (stripTrailBracket (stripLeadBracket name))
    let parts := ((splitOnGt normalized).map jsTrim).filter (fun p => !p.isEmpty)
    match parts with
    | [] => normalized
    | p :: _ => p

/-- The canonical chain separator `" > "`. -/
def sepGt : JStr := [' ', '>', ' ']

/-- Model of `chains.join(" > ")`, the canonical chain construction. -/
def joinChains : List JStr → JStr
  | [] => []
  | [c] => c
  | c :: cs => c ++ sepGt ++ joinChains cs

/-- A well-formed proxy-chain segment: non-empty, free of the separator
character `>`, without surrounding whitespace, and not carrying the
serialized-array bracket characters the display formatter strips. -/
def wfName (s : JStr) : Bool :=
  match s with
  | [] => false
  | c :: _ =>
    !isWs c && !isWs (s.getLastD ' ') && !s.contains '>' &&
      c != '[' && s.getLastD ' ' != ']'

/-! ### Facts about the chain helpers -/

theorem wfName_ne_nil {s : JStr} (h : wfName s = true) : s ≠ [] := by
  intro he
  subst he
  simp [wfName] at h

theorem wfName_parts {c : Char} {t : JStr} (h : wfName (c :: t) = true) :
    isWs c = false ∧ isWs ((c :: t).getLastD ' ') = false ∧
      (c :: t).contains '>' = false ∧ c ≠ '[' ∧ (c :: t).getLastD ' ' ≠ ']' := by
  simp only [wfName, Bool.and_eq_true, Bool.not_eq_true', bne_iff_ne] at h
  exact ⟨h.1.1.1.1, h.1.1.1.2, h.1.1.2, h.1.2, h.2⟩

theorem wfName_getLast {s : JStr} (h : wfName s = true) {a : Char}
    (ha : s.getLast? = some a) : isWs a = false ∧ a ≠ ']' := by
  cases s with
  | nil => simp at ha
  | cons c t =>
    have hp := wfName_parts h
    have hd : (c :: t).getLastD ' ' = a := by
      rw [List.getLastD_eq_getLast?, ha]
      rfl
    rw [hd] at hp
    exact ⟨hp.2.1, hp.2.2.2.2⟩

theorem wfName_head {s : JStr} (h : wfName s = true) {a : Char}
    (ha : s.head? = some a) : isWs a = false ∧ a ≠ '[' := by
  cases s with
  | nil => simp at ha
  | cons c t =>
    have hp := wfName_parts h
    have : c = a := by simpa using ha
    subst this
    exact ⟨hp.1, hp.2.2.2.1⟩

theorem wfName_no_gt {s : JStr} (h : wfName s = true) :
    s.contains '>' = false := by
  cases s with
  | nil => rfl
  | cons c t => exact (wfName_parts h).2.2.1

theorem dropWhile_eq_self_of_head {p : Char → Bool} {l : JStr}
    (h : ∀ a, l.head? = some a → p a = false) : l.dropWhile p = l := by
  cases l with
  | nil => rfl
  | cons c t => simp [List.dropWhile_cons, h c rfl]

theorem jsTrim_eq_self {s : JStr}
    (hh : ∀ a, s.head? = some a → isWs a = false)
    (hl : ∀ a, s.getLast? = some a → isWs a = false) : jsTrim s = s := by
  unfold jsTrim
  rw [dropWhile_eq_self_of_head hh]
  rw [dropWhile_eq_self_of_head (by
    intro a ha
    rw [List.head?_reverse] at ha
    exact hl a ha)]
  exact s.reverse_reverse

theorem jsTrim_wf {s : JStr} (h : wfName s = true) : jsTrim s = s :=
  jsTrim_eq_self (fun a ha => (wfName_head h ha).1)
    (fun a ha => (wfName_getLast h ha).1)

theorem jsTrim_append_space {s : JStr} (h : wfName s = true) :
    jsTrim (s ++ [' ']) = s := by
  have hne : s ≠ [] := wfName_ne_nil h
  have h1 : List.dropWhile isWs (s ++ [' ']) = s ++ [' '] :=
    dropWhile_eq_self_of_head (by
      intro a ha
      rw [List.head?_append_of_ne_nil _ hne] at ha
      exact (wfName_head h ha).1)
  have h2 : List.dropWhile isWs s.reverse = s.reverse :=
    dropWhile_eq_self_of_head (by
      intro a ha
      rw [List.head?_reverse] at ha
      exact (wfName_getLast h ha).1)
  unfold jsTrim
  rw [h1, List.reverse_append]
  show ((([' '] : JStr) ++ s.reverse).dropWhile isWs).reverse = s
  rw [List.singleton_append, List.dropWhile_cons]
  have hsp : isWs ' ' = true := by decide
  rw [if_pos hsp, h2]
  exact s.reverse_reverse

theorem contains_cons_false {c : Char} {t : JStr} {x : Char}
    (h : (c :: t).contains x = false) : (x == c) = false ∧ t.contains x = false := by
  simpa using h

theorem splitOnGt_no_gt {s : JStr} (h : s.contains '>' = false) :
    splitOnGt s = [s] := by
  induction s with
  | nil => rfl
  | cons c t ih =>
    have hp := contains_cons_false h
    have hc : c ≠ '>' := by
      intro he
      subst he
      simp at hp
    rw [splitOnGt, if_neg hc, ih hp.2]

theorem splitOnGt_append {s : JStr} (t : JStr) (h : s.contains '>' = false) :
    splitOnGt (s ++ '>' :: t) = s :: splitOnGt t := by
  induction s with
  | nil =>
    show splitOnGt ('>' :: t) = [] :: splitOnGt t
    rw [splitOnGt, if_pos rfl]
  | cons c s ih =>
    have hp := contains_cons_false h
    have hc : c ≠ '>' := by
      intro he
      subst he
      simp at hp
    show splitOnGt (c :: (s ++ '>' :: t)) = (c :: s) :: splitOnGt t
    rw [splitOnGt, if_neg hc, ih hp.2]

theorem joinChains_ne_nil {c : JStr} (cs : List JStr) (h : c ≠ []) :
    joinChains (c :: cs) ≠ [] := by
  cases cs with
  | nil => exact h
  | cons c2 cs2 =>
    show c ++ sepGt ++ joinChains (c2 :: cs2) ≠ []
    simp [h]

theorem joinChains_head? {c : JStr} (cs : List JStr) (h : c ≠ []) :
    (joinChains (c :: cs)).head? = c.head? := by
  cases cs with
  | nil => rfl
  | cons c2 cs2 =>
    show (c ++ sepGt ++ joinChains (c2 :: cs2)).head? = c.head?
    rw [List.append_assoc, List.head?_append_of_ne_nil _ h]

theorem joinChains_getLast? : ∀ (c : JStr) (cs : List JStr),
    (∀ x ∈ c :: cs, wfName x = true) →
    ∀ a, (joinChains (c :: cs)).getLast? = some a → isWs a = false ∧ a ≠ ']' := by
  intro c cs
  induction cs generalizing c with
  | nil =>
    intro hwf a ha
    exact wfName_getLast (hwf c (by simp)) ha
  | cons c2 cs2 ih =>
    intro hwf a ha
    have hne : joinChains (c2 :: cs2) ≠ [] :=
      joinChains_ne_nil cs2 (wfName_ne_nil (hwf c2 (by simp)))
    have : (joinChains (c :: c2 :: cs2)).getLast? = (joinChains (c2 :: cs2)).getLast? := by
      show (c ++ sepGt ++ joinChains (c2 :: cs2)).getLast? = _
      rw [List.getLast?_append_of_ne_nil _ hne]
    rw [this] at ha
    exact ih c2 (fun x hx => hwf x (by simp at hx ⊢; tauto)) a ha

theorem stripLeadBracket_eq_self {s : JStr}
    (h : ∀ a, s.head? = some a → a ≠ '[') : stripLeadBracket s = s := by
  cases s with
  | nil => rfl
  | cons c t =>
    have hc : c ≠ '[' := h c rfl
    simp [stripLeadBracket, hc]

theorem stripTrailBracket_eq_self {s : JStr}
    (h : ∀ a, s.getLast? = some a → a ≠ ']') : stripTrailBracket s = s := by
  unfold stripTrailBracket
  cases hr : s.reverse with
  | nil =>
    have hs : s = [] := by
      have := congrArg List.reverse hr
      simpa using this
    subst hs
    rfl
  | cons c t =>
    have hc : c ≠ ']' := by
      apply h
      rw [← List.head?_reverse, hr]
      rfl
    show (if c = ']' then _ else c :: t).reverse = s
    rw [if_neg hc, ← hr]
    exact s.reverse_reverse

/-- The filtered, trimmed parts of a canonical chain built from well-formed
segments start with the first segment. -/
theorem parts_head_of_join (c : JStr) (cs : List JStr)
    (hc : wfName c = true) (hcs : ∀ x ∈ cs, wfName x = true) :
    ∃ t, ((splitOnGt (joinChains (c :: cs))).map jsTrim).filter
      (fun p => !p.isEmpty) = c :: t := by
  have hne : c ≠ [] := wfName_ne_nil hc
  cases cs with
  | nil =>
    refine ⟨[], ?_⟩
    show ((splitOnGt (joinChains [c])).map jsTrim).filter (fun p => !p.isEmpty) = [c]
    have h1 : joinChains [c] = c := rfl
    rw [h1, splitOnGt_no_gt (wfName_no_gt hc), List.map_cons, List.map_nil,
      jsTrim_wf hc, List.filter_cons]
    have hkeep : (!c.isEmpty) = true := by
      simpa [List.isEmpty_eq_true] using hne
    rw [if_pos hkeep]
    rfl
  | cons c2 cs2 =>
    have hj : joinChains (c :: c2 :: cs2)
        = (c ++ [' ']) ++ '>' :: (' ' :: joinChains (c2 :: cs2)) := by
      show c ++ sepGt ++ joinChains (c2 :: cs2) = _
      simp [sepGt]
    have hcontains : (c ++ [' ']).contains '>' = false := by
      have h1 := wfName_no_gt hc
      simp at h1 ⊢
      simpa using h1
    rw [hj, splitOnGt_append _ hcontains]
    rw [List.map_cons, List.filter_cons]
    rw [jsTrim_append_space hc]
    have hkeep : (!c.isEmpty) = true := by
      simpa [List.isEmpty_eq_true] using hne
    rw [if_pos hkeep]
    exact ⟨_, rfl⟩


theorem joinChains_head_facts {c : JStr} (cs : List JStr)
    (hc : wfName c = true) :
    ∀ a, (joinChains (c :: cs)).head? = some a → isWs a = false ∧ a ≠ '[' := by
  intro a ha
  rw [joinChains_head? cs (wfName_ne_nil hc)] at ha
  exact wfName_head hc ha

/-- C9: for a canonical chain built as `chains.join(" > ")` from
well-formed proxy-first segments, the display formatter returns the first
segment when the chains array is non-empty and `DIRECT` when the chain is
empty, and `getLandingProxy` returns the first segment of every non-empty
canonical chain. -/
theorem c9_landing_proxy (chains : List JStr)
    (hwf : ∀ x ∈ chains, wfName x = true) :
    formatProxyName (joinChains chains)
      = (match chains with
         | [] => "DIRECT".toList
         | c :: _ => c)
    ∧ ∀ c cs, chains = c :: cs → getLandingProxy (joinChains chains) = c := by
  cases chains with
  | nil =>
    refine ⟨rfl, ?_⟩
    intro c cs h
    cases h
  | cons c cs =>
    have hc : wfName c = true := hwf c (by simp)
    have hcs : ∀ x ∈ cs, wfName x = true := fun x hx => hwf x (by simp [hx])
    obtain ⟨t, ht⟩ := parts_head_of_join c cs hc hcs
    have hne : c ≠ [] := wfName_ne_nil hc
    have hjne : joinChains (c :: cs) ≠ [] := joinChains_ne_nil cs hne
    have hheads := joinChains_head_facts cs hc
    have hlasts := joinChains_getLast? c cs hwf
    have hsl : stripLeadBracket (joinChains (c :: cs)) = joinChains (c :: cs) :=
      stripLeadBracket_eq_self (fun a ha => (hheads a ha).2)
    have hst : stripTrailBracket (joinChains (c :: cs)) = joinChains (c :: cs) :=
      stripTrailBracket_eq_self (fun a ha => (hlasts a ha).2)
    have htrim : jsTrim (joinChains (c :: cs)) = joinChains (c :: cs) :=
      jsTrim_eq_self (fun a ha => (hheads a ha).1) (fun a ha => (hlasts a ha).1)
    have hempty : (joinChains (c :: cs)).isEmpty = false := by
      simpa [List.isEmpty_eq_false] using hjne
    constructor
    · show formatProxyName (joinChains (c :: cs)) = c
      unfold formatProxyName
      simp only [hempty, Bool.false_eq_true, if_false, hsl, hst, htrim, ht]
    · intro c2 cs2 h2
      injection h2 with e1 e2
      subst e1
      subst e2
      unfold getLandingProxy
      rw [ht]

/-- Concrete two-segment chain exercising the landing-proxy theorem. -/
theorem c9_landing_proxy_witness :
    formatProxyName (joinChains [['P'], ['R']]) = ['P'] ∧
      getLandingProxy (joinChains [['P'], ['R']]) = ['P'] := by
  have h := c9_landing_proxy [['P'], ['R']] (by decide)
  exact ⟨h.1, h.2 ['P'] [['R']] rfl⟩

/-! ## Query API model (api.ts) -/

/-- Stored backend row. Modelled from the spec: the Store's Backend record
`{id, name, url, token?, enabled, listening, isActive, createdAt}` (the
db.ts module is not among the provided sources). -/
structure Backend where
  id : Int
  name : String
  url : String
  token : Option String
  enabled : Bool
  listening : Bool
  is_active : Bool
  createdAt : Int
deriving DecidableEq, Repr

/-- An HTTP error reply `{error}` together with its status code. -/
structure ErrReply where
  status : Nat
  error : String
deriving DecidableEq, Repr

/-- Model of `getBackendId`: the id comes from the `backendId` query
parameter when truthy (via JS `parseInt`, modelled by `parseIntJS` with
`none` for `NaN`), otherwise from the active backend. -/
def getBackendId (parseIntJS : String → Option Int)
    (backendIdParam : Option String) (activeBackend : Option Backend) :
    Option Int :=
  match backendIdParam with
  | some s => if s.isEmpty then activeBackend.map (fun b => b.id) else parseIntJS s
  | none => activeBackend.map (fun b => b.id)

/-- The validated time-range value `{start?, end?, active}` produced by
`getTimeRange`. -/
structure TimeRange where
  rstart : Option String
  rend : Option String
  active : Bool
deriving DecidableEq, Repr

/-- Model of `getTimeRange`: validates the `start` and `end` query
parameters. `parseDate` models `new Date(s).getTime()` with `none` for an
invalid date and `isoOf` models `Date.prototype.toISOString` on the parsed
epoch milliseconds. -/
def getTimeRange (parseDate : String → Option Int) (isoOf : Int → String)
    (qstart qend : Option String) : Except ErrReply TimeRange :=
  if !truthy qstart && !truthy qend then
    .ok { rstart := none, rend := none, active := false }
  else if !truthy qstart || !truthy qend then
    .error { status := 400, error := "Both start and end must be provided together" }
  else
    match qstart.bind parseDate, qend.bind parseDate with
    | some startMs, some endMs =>
      if startMs > endMs then
        .error { status := 400, error := "start must be less than or equal to end" }
      else
        .ok { rstart := some (isoOf startMs), rend := some (isoOf endMs), active := true }
    | _, _ =>
      .error { status := 400, error := "Invalid time range format, expected ISO datetime" }

/-- The realtime tolerance window: `REALTIME_RANGE_END_TOLERANCE_MS` as
parsed by `parseInt` (with `none` for `NaN`), clamped below to 10000 ms
when finite, and the 120000 ms default otherwise. -/
def toleranceWindowMs (envTolerance : Option Int) : Int :=
  match envTolerance with
  | some t => max 10000 t
  | none => 120000

/-- Model of `shouldIncludeRealtime`: whether realtime deltas are merged
into a query result for the given validated time range. -/
def shouldIncludeRealtime (now : Int) (envTolerance : Option Int)
    (parseDate : String → Option Int) (tr : TimeRange) : Bool :=
  if !tr.active then true
  else
    match tr.rend with
    | none => false
    | some e =>
      match parseDate e with
      | none => false
      | some endMs => decide (now - toleranceWindowMs envTolerance ≤ endMs)

/-- One aggregate row as returned by the per-dimension stats queries: a
dimension key with upload, download and connection totals. -/
structure StatRow where
  key : String
  totalUpload : Int
  totalDownload : Int
  totalConnections : Int
deriving DecidableEq, Repr

/-- Pending realtime totals of one backend. -/
structure Totals where
  upload : Int
  download : Int
  connections : Int
deriving DecidableEq, Repr

/-- The windowed store summary returned by `db.getSummary`. -/
structure Summary where
  totalUpload : Int
  totalDownload : Int
  totalConnections : Int
  uniqueDomains : Int
  uniqueIPs : Int
deriving DecidableEq, Repr

/-- Modelled from the spec: `applySummaryDelta(backendId, dbSummary)`
returns the DB summary with its totals incremented by the backend's cached
aggregates (the realtime.ts module is not among the provided sources). -/
def applySummaryDelta (pending : Totals) (s : Summary) : Summary :=
  { s with
    totalUpload := s.totalUpload + pending.upload
    totalDownload := s.totalDownload + pending.download
    totalConnections := s.totalConnections + pending.connections }

/-- Descending-total-traffic comparator used by top-list queries and
overlay merges. -/
def trafficGe (a b : StatRow) : Bool :=
  decide (b.totalDownload + b.totalUpload ≤ a.totalDownload + a.totalUpload)

/-- Insert a row into a list sorted by descending total traffic. -/
def insertByTraffic (r : StatRow) : List StatRow → List StatRow
  | [] => [r]
  | x :: xs => if trafficGe x r then x :: insertByTraffic r xs else r :: x :: xs

/-- Sort rows by descending total traffic (insertion sort). -/
def sortByTraffic (l : List StatRow) : List StatRow :=
  l.foldr insertByTraffic []

/-- Additively merge one cached row into a row list, keyed by dimension. -/
def addCachedRow (acc : List StatRow) (r : StatRow) : List StatRow :=
  if acc.any (fun x => x.key == r.key) then
    acc.map (fun x =>
      if x.key == r.key then
        { x with
          totalUpload := x.totalUpload + r.totalUpload
          totalDownload := x.totalDownload + r.totalDownload
          totalConnections := x.totalConnections + r.totalConnections }
      else x)
  else acc ++ [r]

/-- Modelled from the spec: `mergeTopDomains` and `mergeTopIPs` consume a
DB-sorted list, additively merge the cached rows keyed by the same
dimension, re-sort, and truncate to `topN`. -/
def mergeTop (cached : List StatRow) (dbList : List StatRow) (topN : Nat) :
    List StatRow :=
  (sortByTraffic (cached.foldl addCachedRow dbList)).take topN

/-- Modelled from the spec: `mergeProxyStats` additively merges the cached
proxy rows into the DB-sorted proxy list and re-sorts, without
truncation. -/
def mergeProxyStats (cached : List StatRow) (dbList : List StatRow) :
    List StatRow :=
  sortByTraffic (cached.foldl addCachedRow dbList)

/-- Modelled from the spec: the Store read interface used by the stats and
backend endpoints (the db.ts module is not among the provided sources).
Raw per-dimension row sets are functions of the backend id and the query
window; the hourly dimension is one row per bucket index. -/
structure StoreDB where
  backends : List Backend
  domainRows : Int → Option String → Option String → List StatRow
  ipRows : Int → Option String → Option String → List StatRow
  proxyRows : Int → Option String → Option String → List StatRow
  ruleRows : Int → Option String → Option String → List StatRow
  summaryOf : Int → Option String → Option String → Summary
  hourRow : Int → Nat → Option String → Option String → StatRow
  trafficInRange : Int → Option String → Option String → Totals

/-- Model of `db.getActiveBackend`: the backend flagged active. -/
def StoreDB.getActiveBackend (db : StoreDB) : Option Backend :=
  db.backends.find? (fun b => b.is_active)

/-- Model of `db.getBackend`: lookup by id. -/
def StoreDB.getBackend (db : StoreDB) (id : Int) : Option Backend :=
  db.backends.find? (fun b => b.id == id)

/-- Modelled from the spec: `db.getListeningBackends` — the backends
currently collecting data. -/
def StoreDB.getListeningBackends (db : StoreDB) : List Backend :=
  db.backends.filter (fun b => b.listening)

/-- Modelled from the spec: `db.getTopDomains(backendId, n, start, end)` —
the domain rows of the window sorted by traffic, limited to `n`. -/
def StoreDB.getTopDomains (db : StoreDB) (b : Int) (n : Nat)
    (s e : Option String) : List StatRow :=
  (sortByTraffic (db.domainRows b s e)).take n

/-- Modelled from the spec: `db.getTopIPs(backendId, n, start, end)`. -/
def StoreDB.getTopIPs (db : StoreDB) (b : Int) (n : Nat)
    (s e : Option String) : List StatRow :=
  (sortByTraffic (db.ipRows b s e)).take n

/-- Modelled from the spec: `db.getProxyStats(backendId, start, end)` —
the proxy-chain rows of the window sorted by traffic. -/
def StoreDB.getProxyStats (db : StoreDB) (b : Int) (s e : Option String) :
    List StatRow :=
  sortByTraffic (db.proxyRows b s e)

/-- Modelled from the spec: `db.getRuleStats(backendId, start, end)`. -/
def StoreDB.getRuleStats (db : StoreDB) (b : Int) (s e : Option String) :
    List StatRow :=
  sortByTraffic (db.ruleRows b s e)

/-- Modelled from the spec: `db.getHourlyStats(backendId, n, start, end)`
returns one aggregate row per each of the `n` most recent hour buckets. -/
def StoreDB.getHourlyStats (db : StoreDB) (b : Int) (n : Nat)
    (s e : Option String) : List StatRow :=
  (List.range n).map (fun i => db.hourRow b i s e)

/-- Modelled from the spec: the Realtime Cache state visible to the query
API — per-backend pending aggregates by dimension plus the day-scoped
delta (the realtime.ts module is not among the provided sources). -/
structure RealtimeStore where
  pending : Int → Totals
  cachedDomains : Int → List StatRow
  cachedIPs : Int → List StatRow
  cachedProxies : Int → List StatRow
  todayDelta : Int → Totals

/-- The nested `backend` object of the summary response. -/
structure BackendInfo where
  id : Int
  name : String
  isActive : Bool
  listening : Bool
deriving DecidableEq, Repr

/-- The JSON body returned by `GET /api/stats/summary`. -/
structure SummaryResponse where
  backend : BackendInfo
  totalConnections : Int
  totalUpload : Int
  totalDownload : Int
  totalDomains : Int
  totalIPs : Int
  totalRules : Nat
  totalProxies : Nat
  todayUpload : Int
  todayDownload : Int
  topDomains : List StatRow
  topIPs : List StatRow
  proxyStats : List StatRow
  ruleStats : List StatRow
  hourlyStats : List StatRow
deriving DecidableEq, Repr

/-- Model of the `GET /api/stats/summary` handler. -/
def statsSummaryHandler (db : StoreDB) (rt : RealtimeStore)
    (now : Int) (envTolerance : Option Int)
    (parseDate : String → Option Int) (isoOf : Int → String)
    (parseIntJS : String → Option Int)
    (qBackendId qstart qend : Option String) :
    Except ErrReply SummaryResponse :=
  match getTimeRange parseDate isoOf qstart qend with
  | .error e => .error e
  | .ok tr =>
    match getBackendId parseIntJS qBackendId db.getActiveBackend with
    | none => .error { status := 404, error := "No backend specified or active" }
    | some backendId =>
      match db.getBackend backendId with
      | none => .error { status := 404, error := "Backend not found" }
      | some backend =>
        let includeRealtime := shouldIncludeRealtime now envTolerance parseDate tr
        let summary := db.summaryOf backendId tr.rstart tr.rend
        let summaryWithRealtime :=
          if includeRealtime then applySummaryDelta (rt.pending backendId) summary
          else summary
        let dbTopDomains := db.getTopDomains backendId 10 tr.rstart tr.rend
        let topDomains :=
          if includeRealtime then mergeTop (rt.cachedDomains backendId) dbTopDomains 10
          else dbTopDomains
        let dbTopIPs := db.getTopIPs backendId 10 tr.rstart tr.rend
        let topIPs :=
          if includeRealtime then mergeTop (rt.cachedIPs backendId) dbTopIPs 10
          else dbTopIPs
        let dbProxyStats := db.getProxyStats backendId tr.rstart tr.rend
        let proxyStats :=
          if includeRealtime then mergeProxyStats (rt.cachedProxies backendId) dbProxyStats
          else dbProxyStats
        let ruleStats := db.getRuleStats backendId tr.rstart tr.rend
        let hourlyStats := db.getHourlyStats backendId 24 tr.rstart tr.rend
        let todayTraffic := db.trafficInRange backendId tr.rstart tr.rend
        let todayDelta :=
          if includeRealtime then rt.todayDelta backendId
          else { upload := 0, download := 0, connections := 0 }
        .ok {
          backend := {
            id := backend.id
            name := backend.name
            isActive := backend.is_active
            listening := backend.listening }
          totalConnections := summaryWithRealtime.totalConnections
          totalUpload := summaryWithRealtime.totalUpload
          totalDownload := summaryWithRealtime.totalDownload
          totalDomains := summary.uniqueDomains
          totalIPs := summary.uniqueIPs
          totalRules := ruleStats.length
          totalProxies := proxyStats.length
          todayUpload := todayTraffic.upload + todayDelta.upload
          todayDownload := todayTraffic.download + todayDelta.download
          topDomains := topDomains
          topIPs := topIPs
          proxyStats := proxyStats
          ruleStats := ruleStats
          hourlyStats := hourlyStats }

/-- Model of the `GET /api/stats/proxies` handler. -/
def statsProxiesHandler (db : StoreDB) (rt : RealtimeStore)
    (now : Int) (envTolerance : Option Int)
    (parseDate : String → Option Int) (isoOf : Int → String)
    (parseIntJS : String → Option Int)
    (qBackendId qstart qend : Option String) :
    Except ErrReply (List StatRow) :=
  match getTimeRange parseDate isoOf qstart qend with
  | .error e => .error e
  | .ok tr =>
    match getBackendId parseIntJS qBackendId db.getActiveBackend with
    | none => .error { status := 404, error := "No backend specified or active" }
    | some backendId =>
      let stats := db.getProxyStats backendId tr.rstart tr.rend
      if shouldIncludeRealtime now envTolerance parseDate tr then
        .ok (mergeProxyStats (rt.cachedProxies backendId) stats)
      else
        .ok stats

/-! ## Backend management and database endpoints -/

/-- The sanitized backend object returned by the backends endpoints:
`({token, ...rest}) => ({...rest, hasToken: !!token})`. -/
structure PublicBackend where
  id : Int
  name : String
  url : String
  enabled : Bool
  listening : Bool
  is_active : Bool
  createdAt : Int
  hasToken : Bool
deriving DecidableEq, Repr

/-- Strip the token from a backend row, adding the `hasToken` flag. -/
def sanitizeBackend (b : Backend) : PublicBackend :=
  { id := b.id, name := b.name, url := b.url, enabled := b.enabled,
    listening := b.listening, is_active := b.is_active,
    createdAt := b.createdAt, hasToken := truthy b.token }

/-- Model of `GET /api/backends`. -/
def getBackendsHandler (db : StoreDB) : List PublicBackend :=
  db.backends.map sanitizeBackend

/-- Model of `GET /api/backends/listening`. -/
def getListeningBackendsHandler (db : StoreDB) : List PublicBackend :=
  db.getListeningBackends.map sanitizeBackend

/-- A JSON reply body as produced by the handlers that mix error objects
with data objects. -/
inductive Body where
  | errorBody (msg : String)
  | backendBody (b : PublicBackend)
  | cleanupAllBody (deleted domains ips proxies rules : Int)
  | cleanupBody (deleted : Int)
deriving DecidableEq, Repr

/-- An HTTP reply: status code plus JSON body. -/
structure Reply where
  status : Nat
  body : Body
deriving DecidableEq, Repr

/-- Model of `GET /api/backends/active`. Both the found and the
no-active-backend arm are returned with the framework default 200
status; the source never sets a status on this route. -/
def getActiveBackendHandler (db : StoreDB) : Reply :=
  match db.getActiveBackend with
  | none => { status := 200, body := .errorBody "No active backend configured" }
  | some b => { status := 200, body := .backendBody (sanitizeBackend b) }

/-- Per-dimension deletion counts of `cleanupOldData`. -/
structure CleanupResult where
  deletedConnections : Int
  deletedDomains : Int
  deletedIPs : Int
  deletedProxies : Int
  deletedRules : Int
deriving DecidableEq, Repr

/-- Model of the `POST /api/db/cleanup` handler. `days` is `none` when the
request body carries no number; the store cleanup and realtime
cache-clear effects are abstracted into `doCleanup`. The invalid-`days`
arm returns its error object without setting a status, hence 200. -/
def dbCleanupHandler (doCleanup : Option Int → Int → CleanupResult)
    (days : Option Int) (bodyBackendId : Option Int) : Reply :=
  match days with
  | none => { status := 200, body := .errorBody "Valid days parameter required" }
  | some d =>
    if d < 0 then { status := 200, body := .errorBody "Valid days parameter required" }
    else
      let result := doCleanup bodyBackendId d
      if d = 0 then
        { status := 200,
          body := .cleanupAllBody result.deletedConnections result.deletedDomains
            result.deletedIPs result.deletedProxies result.deletedRules }
      else
        { status := 200, body := .cleanupBody result.deletedConnections }

/-- The persistent retention configuration row. -/
structure RetentionConfig where
  connectionLogsDays : Int
  hourlyStatsDays : Int
  autoCleanup : Bool
deriving DecidableEq, Repr

/-- Modelled from the spec: `db.updateRetentionConfig` overwrites the
supplied fields of the singleton config row, leaves omitted fields
unchanged, and returns the new config. -/
def updateRetentionConfig (cfg : RetentionConfig)
    (connectionLogsDays hourlyStatsDays : Option Int)
    (autoCleanup : Option Bool) : RetentionConfig :=
  { connectionLogsDays := connectionLogsDays.getD cfg.connectionLogsDays
    hourlyStatsDays := hourlyStatsDays.getD cfg.hourlyStatsDays
    autoCleanup := autoCleanup.getD cfg.autoCleanup }

/-- Model of the `PUT /api/db/retention` handler: the resulting stored
config together with the reply. -/
def putRetentionHandler (cfg : RetentionConfig)
    (connectionLogsDays hourlyStatsDays : Option Int)
    (autoCleanup : Option Bool) :
    RetentionConfig × Except ErrReply RetentionConfig :=
  if connectionLogsDays.any (fun d => decide (d < 1) || decide (d > 90)) then
    (cfg, .error { status := 400
                   error := "connectionLogsDays must be between 1 and 90" })
  else if hourlyStatsDays.any (fun d => decide (d < 7) || decide (d > 365)) then
    (cfg, .error { status := 400
                   error := "hourlyStatsDays must be between 7 and 365" })
  else
    let newConfig := updateRetentionConfig cfg connectionLogsDays hourlyStatsDays autoCleanup
    (newConfig, .ok newConfig)

/-- A fresh backend id. Modelled from the spec: the Store assigns ids by
autoincrement. -/
def nextBackendId (db : StoreDB) : Int :=
  (db.backends.foldl (fun m b => max m b.id) 0) + 1

/-- Modelled from the spec: `db.createBackend` inserts a not-yet-active
backend row with a fresh id; the insert fails with a UNIQUE-constraint
error when the name already exists (`name` is unique). -/
def createBackend (db : StoreDB) (name url : String) (token : Option String)
    (nowTs : Int) : Except Unit (StoreDB × Int) :=
  if db.backends.any (fun b => b.name == name) then .error ()
  else
    let id := nextBackendId db
    .ok ({ db with backends := db.backends ++
      [{ id := id, name := name, url := url, token := token, enabled := true,
         listening := true, is_active := false, createdAt := nowTs }] }, id)

/-- Modelled from the spec: `db.setActiveBackend` marks the given backend
active and clears the flag on every other backend. -/
def setActiveBackend (db : StoreDB) (id : Int) : StoreDB :=
  { db with backends := db.backends.map (fun b => { b with is_active := b.id == id }) }

/-- The success body of `POST /api/backends`. -/
structure CreateBackendResp where
  id : Int
  isActive : Bool
deriving DecidableEq, Repr

/-- Model of the `POST /api/backends` handler: the resulting store state
together with the reply. A UNIQUE-constraint failure from the insert is
mapped to 409; when the store was empty beforehand the new backend is made
active. -/
def postBackendsHandler (db : StoreDB) (nowTs : Int)
    (name url token : Option String) :
    StoreDB × Except ErrReply CreateBackendResp :=
  if !truthy name || !truthy url then
    (db, .error { status := 400, error := "Name and URL are required" })
  else
    match name, url with
    | some n, some u =>
      let isFirstBackend := db.backends.isEmpty
      match createBackend db n u token nowTs with
      | .error _ => (db, .error { status := 409, error := "Backend name already exists" })
      | .ok (db2, id) =>
        let db3 := if isFirstBackend then setActiveBackend db2 id else db2
        (db3, .ok { id := id, isActive := isFirstBackend })
    | _, _ => (db, .error { status := 400, error := "Name and URL are required" })

/-! ## Witness fixtures -/

/-- Concrete date parser used in the concrete evaluations. -/
def wParse : String → Option Int := fun s =>
  if s = "S" then some 0 else if s = "E" then some 100 else none

/-- Concrete ISO formatter used in the concrete evaluations. -/
def wIso : Int → String := fun n => if n = 0 then "S" else "E"

/-- Concrete integer parser used in the concrete evaluations. -/
def wPint : String → Option Int := fun s => if s = "1" then some 1 else none

/-- A stored backend used in the concrete evaluations. -/
def wBackend : Backend :=
  { id := 1, name := "b", url := "http://x", token := none, enabled := true,
    listening := true, is_active := true, createdAt := 0 }

/-- A store state with one active backend used in the concrete
evaluations. -/
def wDB : StoreDB :=
  { backends := [wBackend]
    domainRows := fun _ _ _ => []
    ipRows := fun _ _ _ => []
    proxyRows := fun _ _ _ => [⟨"P > R", 1, 2, 3⟩]
    ruleRows := fun _ _ _ => []
    summaryOf := fun _ _ _ => ⟨10, 1000, 5, 2, 3⟩
    hourRow := fun _ _ _ _ => ⟨"h", 0, 0, 0⟩
    trafficInRange := fun _ _ _ => ⟨0, 0, 0⟩ }

/-- An empty store state used in the concrete evaluations. -/
def emptyDB : StoreDB :=
  { backends := []
    domainRows := fun _ _ _ => []
    ipRows := fun _ _ _ => []
    proxyRows := fun _ _ _ => []
    ruleRows := fun _ _ _ => []
    summaryOf := fun _ _ _ => ⟨0, 0, 0, 0, 0⟩
    hourRow := fun _ _ _ _ => ⟨"", 0, 0, 0⟩
    trafficInRange := fun _ _ _ => ⟨0, 0, 0⟩ }

/-- A realtime cache state with pending totals used in the concrete
evaluations. -/
def wRT : RealtimeStore :=
  { pending := fun _ => ⟨20, 250, 7⟩
    cachedDomains := fun _ => []
    cachedIPs := fun _ => []
    cachedProxies := fun _ => []
    todayDelta := fun _ => ⟨0, 0, 0⟩ }

/-! ## Claim theorems -/

/-- C10: a stats request that supplies neither `start` nor `end` produces
the inactive time range, for which the realtime gate answers true — and so
the proxies endpoint merges the realtime overlay — regardless of the
current time and the configured tolerance. -/
theorem c10_no_range_always_overlaid
    (now : Int) (envTolerance : Option Int)
    (parseDate : String → Option Int) (isoOf : Int → String)
    (tr : TimeRange)
    (h : getTimeRange parseDate isoOf none none = .ok tr) :
    shouldIncludeRealtime now envTolerance parseDate tr = true ∧
    ∀ (db : StoreDB) (rt : RealtimeStore) (parseIntJS : String → Option Int)
      (qb : Option String) (bid : Int),
      getBackendId parseIntJS qb db.getActiveBackend = some bid →
      statsProxiesHandler db rt now envTolerance parseDate isoOf parseIntJS qb none none =
        .ok (mergeProxyStats (rt.cachedProxies bid) (db.getProxyStats bid none none)) := by
  have hred : getTimeRange parseDate isoOf none none
      = .ok { rstart := none, rend := none, active := false } := rfl
  rw [hred] at h
  injection h with h2
  subst h2
  refine ⟨rfl, ?_⟩
  intro db rt parseIntJS qb bid hb
  unfold statsProxiesHandler
  rw [hred, hb]
  rfl

/-- C10 witness: the gate on the inactive range evaluated concretely. -/
theorem c10_no_range_always_overlaid_witness :
    shouldIncludeRealtime 0 none wParse
      { rstart := none, rend := none, active := false } = true :=
  (c10_no_range_always_overlaid 0 none wParse wIso
    { rstart := none, rend := none, active := false } rfl).1

/-- C4: the backend id is taken from the `backendId` query parameter when
that parameter is truthy, otherwise from the active backend; when the
resolution yields no id the summary endpoint replies 404 with an error
body. -/
theorem c4_backend_resolution
    (parseIntJS : String → Option Int) (q : Option String)
    (active : Option Backend) :
    (∀ s, q = some s → truthy q = true →
      getBackendId parseIntJS q active = parseIntJS s)
    ∧ (truthy q = false →
      getBackendId parseIntJS q active = active.map (fun b => b.id))
    ∧ ∀ (db : StoreDB) (rt : RealtimeStore) (now : Int)
        (envTolerance : Option Int) (parseDate : String → Option Int)
        (isoOf : Int → String) (qs qe : Option String) (tr : TimeRange),
        getTimeRange parseDate isoOf qs qe = .ok tr →
        getBackendId parseIntJS q db.getActiveBackend = none →
        statsSummaryHandler db rt now envTolerance parseDate isoOf parseIntJS q qs qe =
          .error { status := 404, error := "No backend specified or active" } := by
  refine ⟨?_, ?_, ?_⟩
  · intro s hq ht
    subst hq
    simp only [truthy] at ht
    have hnem : s.isEmpty = false := by simpa using ht
    simp [getBackendId, hnem]
  · intro ht
    cases q with
    | none => rfl
    | some s =>
      simp only [truthy] at ht
      have hem : s.isEmpty = true := by simpa using ht
      simp [getBackendId, hem]
  · intro db rt now envTolerance parseDate isoOf qs qe tr hok hnone
    unfold statsSummaryHandler
    rw [hok, hnone]

/-- C4 witness: resolution from a concrete query parameter, and the 404
reply when nothing resolves. -/
theorem c4_backend_resolution_witness :
    getBackendId wPint (some "1") none = some 1 ∧
    statsSummaryHandler emptyDB wRT 0 none wParse wIso wPint none none none =
      .error { status := 404, error := "No backend specified or active" } := by
  have h := c4_backend_resolution wPint (some "1") none
  have h2 := c4_backend_resolution wPint none none
  refine ⟨?_, ?_⟩
  · rw [h.1 "1" rfl (by decide)]
    rfl
  · exact h2.2.2 emptyDB wRT 0 none wParse wIso none none
      { rstart := none, rend := none, active := false } rfl (by decide)

/-- C2: time-range validation — when exactly one parameter is supplied, or
a supplied value does not parse, or start exceeds end, the endpoint
replies 400; with neither supplied the query proceeds without a window;
with both parsed and in order it proceeds with the normalized window. -/
theorem c2_time_range_validation
    (parseDate : String → Option Int) (isoOf : Int → String)
    (qs qe : Option String) :
    (truthy qs = false ∧ truthy qe = false →
      getTimeRange parseDate isoOf qs qe =
        .ok { rstart := none, rend := none, active := false })
    ∧ (truthy qs ≠ truthy qe →
      ∃ msg, getTimeRange parseDate isoOf qs qe = .error { status := 400, error := msg })
    ∧ (∀ s e, qs = some s → qe = some e → truthy qs = true → truthy qe = true →
      parseDate s = none ∨ parseDate e = none →
      getTimeRange parseDate isoOf qs qe =
        .error { status := 400, error := "Invalid time range format, expected ISO datetime" })
    ∧ (∀ s e sMs eMs, qs = some s → qe = some e →
      truthy qs = true → truthy qe = true →
      parseDate s = some sMs → parseDate e = some eMs → eMs < sMs →
      getTimeRange parseDate isoOf qs qe =
        .error { status := 400, error := "start must be less than or equal to end" })
    ∧ (∀ s e sMs eMs, qs = some s → qe = some e →
      truthy qs = true → truthy qe = true →
      parseDate s = some sMs → parseDate e = some eMs → sMs ≤ eMs →
      getTimeRange parseDate isoOf qs qe =
        .ok { rstart := some (isoOf sMs), rend := some (isoOf eMs), active := true }) := by
  refine ⟨?_, ?_, ?_, ?_, ?_⟩
  · intro h
    unfold getTimeRange
    rw [h.1, h.2]
    rfl
  · intro h
    unfold getTimeRange
    cases hs : truthy qs with
    | false =>
      cases he : truthy qe with
      | false => rw [hs] at h; rw [he] at h; exact absurd rfl h
      | true => exact ⟨_, rfl⟩
    | true =>
      cases he : truthy qe with
      | false => exact ⟨_, rfl⟩
      | true => rw [hs] at h; rw [he] at h; exact absurd rfl h
  · intro s e hqs hqe hts hte hpar
    subst hqs; subst hqe
    unfold getTimeRange
    rw [hts, hte]
    simp only [Bool.not_true, Bool.and_self, Bool.or_self, if_false]
    cases hpar with
    | inl hp =>
      rw [show (some s).bind parseDate = none by simpa using hp]
      rfl
    | inr hp =>
      rw [show (some e).bind parseDate = none by simpa using hp]
      cases hsb : (some s).bind parseDate <;> rfl
  · intro s e sMs eMs hqs hqe hts hte hps hpe hlt
    subst hqs; subst hqe
    unfold getTimeRange
    rw [hts, hte]
    simp only [Bool.not_true, Bool.and_self, Bool.or_self, if_false]
    rw [show (some s).bind parseDate = some sMs by simpa using hps,
      show (some e).bind parseDate = some eMs by simpa using hpe]
    show (if sMs > eMs then
        (.error { status := 400, error := "start must be less than or equal to end" } :
          Except ErrReply TimeRange)
      else .ok { rstart := some (isoOf sMs), rend := some (isoOf eMs), active := true })
      = .error { status := 400, error := "start must be less than or equal to end" }
    rw [if_pos (show sMs > eMs from hlt)]
  · intro s e sMs eMs hqs hqe hts hte hps hpe hle
    subst hqs; subst hqe
    unfold getTimeRange
    rw [hts, hte]
    simp only [Bool.not_true, Bool.and_self, Bool.or_self, if_false]
    rw [show (some s).bind parseDate = some sMs by simpa using hps,
      show (some e).bind parseDate = some eMs by simpa using hpe]
    show (if sMs > eMs then
        (.error { status := 400, error := "start must be less than or equal to end" } :
          Except ErrReply TimeRange)
      else .ok { rstart := some (isoOf sMs), rend := some (isoOf eMs), active := true })
      = .ok { rstart := some (isoOf sMs), rend := some (isoOf eMs), active := true }
    rw [if_neg (show ¬ sMs > eMs by omega)]

/-- C2 witness: a concrete in-order window proceeds normalized, and a
lone start parameter is rejected with a 400 reply. -/
theorem c2_time_range_validation_witness :
    getTimeRange wParse wIso (some "S") (some "E") =
      .ok { rstart := some "S", rend := some "E", active := true } ∧
    ∃ msg, getTimeRange wParse wIso (some "S") none =
      .error { status := 400, error := msg } := by
  have h := c2_time_range_validation wParse wIso (some "S") (some "E")
  have h2 := c2_time_range_validation wParse wIso (some "S") none
  exact ⟨h.2.2.2.2 "S" "E" 0 100 rfl rfl (by decide) (by decide) rfl rfl
    (by decide), h2.2.1 (by decide)⟩

/-- C1: for a stats query with a validated time window, the realtime
overlay gate answers true exactly when the window end is at or after now
minus the tolerance; the tolerance is the parsed
`REALTIME_RANGE_END_TOLERANCE_MS` clamped below to 10000 ms when it is a
finite number and 120000 ms otherwise; and a window whose end is more than
the tolerance before now makes the proxies endpoint return the Store rows
verbatim, with no overlay. -/
theorem c1_overlay_tolerance
    (now endMs : Int) (envTolerance : Option Int)
    (parseDate : String → Option Int) (e : String)
    (hpe : parseDate e = some endMs)
    (tr : TimeRange) (htr : tr.active = true) (hend : tr.rend = some e) :
    (shouldIncludeRealtime now envTolerance parseDate tr = true ↔
      now - toleranceWindowMs envTolerance ≤ endMs)
    ∧ (∀ t, envTolerance = some t → toleranceWindowMs envTolerance = max 10000 t)
    ∧ (envTolerance = none → toleranceWindowMs envTolerance = 120000)
    ∧ ∀ (db : StoreDB) (rt : RealtimeStore) (isoOf : Int → String)
        (parseIntJS : String → Option Int) (qb qs qe : Option String) (bid : Int),
        getTimeRange parseDate isoOf qs qe = .ok tr →
        getBackendId parseIntJS qb db.getActiveBackend = some bid →
        endMs < now - toleranceWindowMs envTolerance →
        statsProxiesHandler db rt now envTolerance parseDate isoOf parseIntJS qb qs qe =
          .ok (db.getProxyStats bid tr.rstart tr.rend) := by
  have hgate : shouldIncludeRealtime now envTolerance parseDate tr
      = decide (now - toleranceWindowMs envTolerance ≤ endMs) := by
    unfold shouldIncludeRealtime
    rw [htr, hend]
    show (match parseDate e with
          | none => false
          | some endMs2 => decide (now - toleranceWindowMs envTolerance ≤ endMs2))
        = decide (now - toleranceWindowMs envTolerance ≤ endMs)
    rw [hpe]
  refine ⟨?_, ?_, ?_, ?_⟩
  · rw [hgate]
    exact decide_eq_true_iff
  · intro t ht
    rw [ht]
    rfl
  · intro ht
    rw [ht]
    rfl
  · intro db rt isoOf parseIntJS qb qs qe bid hok hb hold
    unfold statsProxiesHandler
    rw [hok, hb]
    show (if shouldIncludeRealtime now envTolerance parseDate tr = true then
        Except.ok (mergeProxyStats (rt.cachedProxies bid)
          (db.getProxyStats bid tr.rstart tr.rend))
      else Except.ok (db.getProxyStats bid tr.rstart tr.rend))
      = Except.ok (db.getProxyStats bid tr.rstart tr.rend)
    rw [hgate,
      decide_eq_false (show ¬ now - toleranceWindowMs envTolerance ≤ endMs by omega)]
    rfl

/-- C1 witness: concrete gate evaluation and the default tolerance. -/
theorem c1_overlay_tolerance_witness :
    shouldIncludeRealtime 100 none wParse
      { rstart := some "S", rend := some "E", active := true } = true ∧
    toleranceWindowMs none = 120000 := by
  have h := c1_overlay_tolerance 100 100 none wParse "E" (by decide)
    { rstart := some "S", rend := some "E", active := true } rfl rfl
  exact ⟨h.1.mpr (by decide), h.2.2.1 rfl⟩

/-- C8: a supplied out-of-bounds retention field yields a 400 error reply
with the stored config unchanged; when every supplied field is within
bounds the config is updated — omitted fields left unchanged — and the
updated config is returned. -/
theorem c8_retention_bounds (cfg : RetentionConfig)
    (cld hsd : Option Int) (ac : Option Bool) :
    (∀ d, cld = some d → (d < 1 ∨ 90 < d) →
      putRetentionHandler cfg cld hsd ac =
        (cfg, .error { status := 400, error := "connectionLogsDays must be between 1 and 90" }))
    ∧ (∀ d, hsd = some d → (d < 7 ∨ 365 < d) →
      ∃ msg, putRetentionHandler cfg cld hsd ac =
        (cfg, .error { status := 400, error := msg }))
    ∧ ((∀ d, cld = some d → 1 ≤ d ∧ d ≤ 90) →
       (∀ d, hsd = some d → 7 ≤ d ∧ d ≤ 365) →
      putRetentionHandler cfg cld hsd ac =
        (updateRetentionConfig cfg cld hsd ac, .ok (updateRetentionConfig cfg cld hsd ac))
      ∧ (cld = none →
        (updateRetentionConfig cfg cld hsd ac).connectionLogsDays = cfg.connectionLogsDays)
      ∧ (hsd = none →
        (updateRetentionConfig cfg cld hsd ac).hourlyStatsDays = cfg.hourlyStatsDays)
      ∧ (ac = none →
        (updateRetentionConfig cfg cld hsd ac).autoCleanup = cfg.autoCleanup)
      ∧ (∀ d, cld = some d →
        (updateRetentionConfig cfg cld hsd ac).connectionLogsDays = d)
      ∧ (∀ d, hsd = some d →
        (updateRetentionConfig cfg cld hsd ac).hourlyStatsDays = d)) := by
  refine ⟨?_, ?_, ?_⟩
  · intro d hd hout
    subst hd
    have hcond : ((some d).any (fun d => decide (d < 1) || decide (d > 90))) = true := by
      rcases hout with h | h <;> simp [Option.any, h]
    unfold putRetentionHandler
    rw [if_pos hcond]
  · intro d hd hout
    by_cases h1 : (cld.any (fun d => decide (d < 1) || decide (d > 90))) = true
    · refine ⟨"connectionLogsDays must be between 1 and 90", ?_⟩
      unfold putRetentionHandler
      rw [if_pos h1]
    · subst hd
      have hcond : ((some d).any (fun d => decide (d < 7) || decide (d > 365))) = true := by
        rcases hout with h | h <;> simp [Option.any, h]
      refine ⟨"hourlyStatsDays must be between 7 and 365", ?_⟩
      unfold putRetentionHandler
      rw [if_neg h1, if_pos hcond]
  · intro hc hh
    have h1 : (cld.any (fun d => decide (d < 1) || decide (d > 90))) = false := by
      cases cld with
      | none => rfl
      | some d =>
        have hb := hc d rfl
        simp only [Option.any, Bool.or_eq_false_iff, decide_eq_false_iff_not]
        omega
    have h2 : (hsd.any (fun d => decide (d < 7) || decide (d > 365))) = false := by
      cases hsd with
      | none => rfl
      | some d =>
        have hb := hh d rfl
        simp only [Option.any, Bool.or_eq_false_iff, decide_eq_false_iff_not]
        omega
    refine ⟨?_, ?_, ?_, ?_, ?_, ?_⟩
    · unfold putRetentionHandler
      rw [if_neg (by simp [h1]), if_neg (by simp [h2])]
    · intro hn
      subst hn
      rfl
    · intro hn
      subst hn
      rfl
    · intro hn
      subst hn
      rfl
    · intro d hd
      subst hd
      rfl
    · intro d hd
      subst hd
      rfl

/-- C8 witness: a concrete out-of-bounds connectionLogsDays rejected with
400 and the config left unchanged. -/
theorem c8_retention_bounds_witness :
    putRetentionHandler { connectionLogsDays := 7, hourlyStatsDays := 30, autoCleanup := true }
        (some 0) none none =
      ({ connectionLogsDays := 7, hourlyStatsDays := 30, autoCleanup := true },
        .error { status := 400, error := "connectionLogsDays must be between 1 and 90" }) :=
  (c8_retention_bounds
    { connectionLogsDays := 7, hourlyStatsDays := 30, autoCleanup := true }
    (some 0) none none).1 0 rfl (Or.inl (by decide))

/-- C5 evidence: contrary to the claim that every failing request carries
a matching 4xx or 5xx status, the invalid-days reply of the cleanup
endpoint and the no-active-backend reply of the active-backend endpoint
both return their `{error}` bodies with HTTP status 200. -/
theorem c5_error_status_divergence :
    dbCleanupHandler (fun _ _ => ⟨0, 0, 0, 0, 0⟩) (some (-1)) none
      = { status := 200, body := .errorBody "Valid days parameter required" }
    ∧ dbCleanupHandler (fun _ _ => ⟨0, 0, 0, 0, 0⟩) none none
      = { status := 200, body := .errorBody "Valid days parameter required" }
    ∧ getActiveBackendHandler emptyDB
      = { status := 200, body := .errorBody "No active backend configured" } := by
  refine ⟨by decide, by decide, by decide⟩

/-- C7: every backend returned by the backends endpoints is the sanitized
stored row: no token field is emitted, `hasToken` is true exactly when the
stored token is non-empty, and the rest of the sanitized object does not
depend on the token value. -/
theorem c7_token_elision (db : StoreDB) :
    (∀ b : Backend, (sanitizeBackend b).hasToken = true ↔
      ∃ s, b.token = some s ∧ s ≠ "")
    ∧ (∀ (b : Backend) (t t2 : Option String), truthy t = truthy t2 →
      sanitizeBackend { b with token := t } = sanitizeBackend { b with token := t2 })
    ∧ getBackendsHandler db = db.backends.map sanitizeBackend
    ∧ getListeningBackendsHandler db
        = (db.backends.filter (fun b => b.listening)).map sanitizeBackend
    ∧ ∀ b, db.getActiveBackend = some b →
        getActiveBackendHandler db
          = { status := 200, body := .backendBody (sanitizeBackend b) } := by
  refine ⟨?_, ?_, rfl, rfl, ?_⟩
  · intro b
    have hh : (sanitizeBackend b).hasToken = truthy b.token := rfl
    rw [hh]
    cases ht : b.token with
    | none => simp [truthy]
    | some s =>
      show (!s.isEmpty) = true ↔ ∃ s2, some s = some s2 ∧ s2 ≠ ""
      simp [Bool.not_eq_true', Bool.eq_false_iff, String.isEmpty_iff]
  · intro b t t2 h
    simp [sanitizeBackend, h]
  · intro b hb
    unfold getActiveBackendHandler
    rw [hb]

/-- C7 witness: the endpoints evaluated on a concrete store. -/
theorem c7_token_elision_witness :
    getBackendsHandler wDB = [sanitizeBackend wBackend] ∧
    getActiveBackendHandler wDB
      = { status := 200, body := .backendBody (sanitizeBackend wBackend) } := by
  have h := c7_token_elision wDB
  exact ⟨h.2.2.1, h.2.2.2.2 wBackend (by decide)⟩

/-- The backend row inserted by a successful create: fresh id, supplied
fields, not yet active. -/
def newBackendRow (db : StoreDB) (n u : String) (token : Option String)
    (nowTs : Int) : Backend :=
  { id := nextBackendId db, name := n, url := u, token := token,
    enabled := true, listening := true, is_active := false, createdAt := nowTs }

/-- C6: creating a backend whose name duplicates a stored one replies 409
and leaves the store unchanged; a successful creation into an empty store
makes the new backend the active one; a successful creation into a
non-empty store appends an inactive row, leaving every existing backend —
in particular the active one — unchanged. -/
theorem c6_create_backend (db : StoreDB) (nowTs : Int)
    (name url token : Option String) :
    (∀ n, name = some n → truthy name = true → truthy url = true →
      (∃ b ∈ db.backends, b.name = n) →
      postBackendsHandler db nowTs name url token =
        (db, .error { status := 409, error := "Backend name already exists" }))
    ∧ (∀ n u, name = some n → url = some u →
      truthy name = true → truthy url = true →
      (∀ b ∈ db.backends, b.name ≠ n) →
      ∃ st2, postBackendsHandler db nowTs name url token =
          (st2, .ok { id := nextBackendId db, isActive := db.backends.isEmpty })
        ∧ (db.backends.isEmpty = true →
          st2.backends = [{ newBackendRow db n u token nowTs with is_active := true }])
        ∧ (db.backends.isEmpty = false →
          st2.backends = db.backends ++ [newBackendRow db n u token nowTs])) := by
  constructor
  · intro n hn hts hte hex
    subst hn
    cases url with
    | none => simp [truthy] at hte
    | some u =>
      have hdup : db.backends.any (fun b => b.name == n) = true := by
        rcases hex with ⟨b, hb, hbn⟩
        rw [List.any_eq_true]
        exact ⟨b, hb, by simp [hbn]⟩
      have hcb : createBackend db n u token nowTs = .error () := by
        unfold createBackend
        rw [if_pos hdup]
      unfold postBackendsHandler
      rw [hts, hte]
      rw [if_neg (by decide)]
      show (match createBackend db n u token nowTs with
            | .error _ => (db, (.error { status := 409, error := "Backend name already exists" } :
                Except ErrReply CreateBackendResp))
            | .ok (db2, id) =>
              ((if db.backends.isEmpty then setActiveBackend db2 id else db2),
                .ok { id := id, isActive := db.backends.isEmpty }))
          = (db, .error { status := 409, error := "Backend name already exists" })
      rw [hcb]
  · intro n u hn hu hts hte hnodup
    subst hn
    subst hu
    have hnd : db.backends.any (fun b => b.name == n) = false := by
      rw [List.any_eq_false]
      intro b hb
      simp [hnodup b hb]
    have hcb : createBackend db n u token nowTs =
        .ok ({ db with backends := db.backends ++ [newBackendRow db n u token nowTs] },
          nextBackendId db) := by
      unfold createBackend
      rw [if_neg (by simp [hnd])]
      rfl
    refine ⟨(if db.backends.isEmpty then
        setActiveBackend
          { db with backends := db.backends ++ [newBackendRow db n u token nowTs] }
          (nextBackendId db)
      else { db with backends := db.backends ++ [newBackendRow db n u token nowTs] }),
      ?_, ?_, ?_⟩
    · unfold postBackendsHandler
      rw [hts, hte]
      rw [if_neg (by decide)]
      show (match createBackend db n u token nowTs with
            | .error _ => (db, (.error { status := 409, error := "Backend name already exists" } :
                Except ErrReply CreateBackendResp))
            | .ok (db2, id) =>
              ((if db.backends.isEmpty then setActiveBackend db2 id else db2),
                .ok { id := id, isActive := db.backends.isEmpty }))
          = _
      rw [hcb]
    · intro hemp
      have hnil : db.backends = [] := List.isEmpty_iff.mp hemp
      rw [if_pos hemp]
      unfold setActiveBackend
      simp [hnil, newBackendRow]
    · intro hnemp
      rw [if_neg (by simp [hnemp])]

/-- C6 witness: a duplicate-name creation on a concrete store. -/
theorem c6_create_backend_witness :
    postBackendsHandler wDB 0 (some "b") (some "u") none =
      (wDB, .error { status := 409, error := "Backend name already exists" }) := by
  have h := c6_create_backend wDB 0 (some "b") (some "u") none
  exact h.1 "b" rfl (by decide) (by decide) ⟨wBackend, by decide, by decide⟩

/-- The overlay gate on a validated window reduces to comparing the parsed
window end against now minus the tolerance. -/
theorem shouldIncludeRealtime_gate (now endMs : Int) (envTolerance : Option Int)
    (parseDate : String → Option Int) (e : String) (tr : TimeRange)
    (hpe : parseDate e = some endMs) (htr : tr.active = true)
    (hend : tr.rend = some e) :
    shouldIncludeRealtime now envTolerance parseDate tr
      = decide (now - toleranceWindowMs envTolerance ≤ endMs) := by
  unfold shouldIncludeRealtime
  rw [htr, hend]
  show (match parseDate e with
        | none => false
        | some endMs2 => decide (now - toleranceWindowMs envTolerance ≤ endMs2))
      = decide (now - toleranceWindowMs envTolerance ≤ endMs)
  rw [hpe]

/-- C3: in every successful summary reply, topDomains and topIPs carry at
most 10 entries and hourlyStats carries 24 buckets; for a windowed query
whose end parses to within the tolerance of now the reply totals are the
Store summary plus the Realtime Cache pending totals, and for a window
ending more than the tolerance before now they are the Store summary
alone. -/
theorem c3_summary_overlay
    (db : StoreDB) (rt : RealtimeStore) (now : Int) (envTolerance : Option Int)
    (parseDate : String → Option Int) (isoOf : Int → String)
    (parseIntJS : String → Option Int) (qb qs qe : Option String)
    (resp : SummaryResponse)
    (hok : statsSummaryHandler db rt now envTolerance parseDate isoOf parseIntJS qb qs qe
      = .ok resp) :
    (resp.topDomains.length ≤ 10 ∧ resp.topIPs.length ≤ 10 ∧
      resp.hourlyStats.length = 24)
    ∧ ∀ bid tr e endMs,
        getBackendId parseIntJS qb db.getActiveBackend = some bid →
        getTimeRange parseDate isoOf qs qe = .ok tr →
        tr.active = true → tr.rend = some e → parseDate e = some endMs →
        ((now - toleranceWindowMs envTolerance ≤ endMs →
          resp.totalDownload
            = (db.summaryOf bid tr.rstart tr.rend).totalDownload + (rt.pending bid).download
          ∧ resp.totalUpload
            = (db.summaryOf bid tr.rstart tr.rend).totalUpload + (rt.pending bid).upload
          ∧ resp.totalConnections
            = (db.summaryOf bid tr.rstart tr.rend).totalConnections + (rt.pending bid).connections)
        ∧ (endMs < now - toleranceWindowMs envTolerance →
          resp.totalDownload = (db.summaryOf bid tr.rstart tr.rend).totalDownload
          ∧ resp.totalUpload = (db.summaryOf bid tr.rstart tr.rend).totalUpload
          ∧ resp.totalConnections = (db.summaryOf bid tr.rstart tr.rend).totalConnections)) := by
  unfold statsSummaryHandler at hok
  cases htr0 : getTimeRange parseDate isoOf qs qe with
  | error e0 => simp [htr0] at hok
  | ok tr0 =>
    cases hbid0 : getBackendId parseIntJS qb db.getActiveBackend with
    | none => simp [htr0, hbid0] at hok
    | some bid0 =>
      cases hbk : db.getBackend bid0 with
      | none => simp [htr0, hbid0, hbk] at hok
      | some backend =>
        simp only [htr0, hbid0, hbk] at hok
        obtain rfl := Except.ok.inj hok
        constructor
        · refine ⟨?_, ?_, ?_⟩
          · cases hinc : shouldIncludeRealtime now envTolerance parseDate tr0 <;>
              simp [hinc, mergeTop, StoreDB.getTopDomains, List.length_take]
          · cases hinc : shouldIncludeRealtime now envTolerance parseDate tr0 <;>
              simp [hinc, mergeTop, StoreDB.getTopIPs, List.length_take]
          · simp [StoreDB.getHourlyStats]
        · intro bid tr e endMs hbid htr hact hrend hpe
          obtain rfl := Except.ok.inj htr
          obtain rfl := Option.some.inj hbid
          have hgate := shouldIncludeRealtime_gate now endMs envTolerance parseDate
            e _ hpe hact hrend
          constructor
          · intro h
            have hcond : shouldIncludeRealtime now envTolerance parseDate tr0 = true := by
              rw [hgate]
              exact decide_eq_true h
            refine ⟨?_, ?_, ?_⟩ <;> simp [hcond, applySummaryDelta]
          · intro h
            have hnot : ¬ (now - toleranceWindowMs envTolerance ≤ endMs) := by omega
            have hcond : shouldIncludeRealtime now envTolerance parseDate tr0 = false := by
              rw [hgate]
              exact decide_eq_false hnot
            refine ⟨?_, ?_, ?_⟩ <;> simp [hcond]

/-- The summary reply of the concrete witness store and cache. -/
def wResp : SummaryResponse :=
  { backend := ⟨1, "b", true, true⟩, totalConnections := 12, totalUpload := 30,
    totalDownload := 1250, totalDomains := 2, totalIPs := 3, totalRules := 0,
    totalProxies := 1, todayUpload := 0, todayDownload := 0, topDomains := [],
    topIPs := [], proxyStats := [⟨"P > R", 1, 2, 3⟩], ruleStats := [],
    hourlyStats := List.replicate 24 ⟨"h", 0, 0, 0⟩ }

/-- C3 witness: concrete summary with Store download 1000 and pending
cache download 250 inside the tolerance window. -/
theorem c3_summary_overlay_witness :
    wResp.topDomains.length ≤ 10 ∧ wResp.topIPs.length ≤ 10 ∧
    wResp.hourlyStats.length = 24 ∧ wResp.totalDownload = 1000 + 250 := by
  have h := c3_summary_overlay wDB wRT 100 none wParse wIso wPint
    (some "1") (some "S") (some "E") wResp (by rfl)
  have h2 := (h.2 1 { rstart := some "S", rend := some "E", active := true }
    "E" 100 (by decide) (by rfl) rfl rfl (by decide)).1 (by decide)
  refine ⟨h.1.1, h.1.2.1, h.1.2.2, ?_⟩
  rw [h2.1]
  decide

end ClashMaster
